import Mathlib

/-!
# Verification of the BowersWorld-com PDF extraction pipeline

Shallow embedding of the metadata-extraction logic of
`HimalayaGPUExtractor_Protected.py` (with some comparisons against
`EnhancedPDFExtractor.py`), together with theorems settling the
specification claims about it.

Strings are modelled as `List Char`; Python's truthiness of a string is
emptiness of the list.
-/

namespace BowersWorld

/-- Python strings modelled as lists of characters. -/
abbrev Str := List Char

/-- `MAX_TEXT_LENGTH` configuration constant of
`HimalayaGPUExtractor_Protected.py`. -/
def MAX_TEXT_LENGTH : Nat := 20000

/-- `MAX_PAGES_TO_PROCESS` configuration constant. -/
def MAX_PAGES_TO_PROCESS : Nat := 12

/-- `TOTAL_PDF_TIMEOUT` configuration constant (seconds). -/
def TOTAL_PDF_TIMEOUT : Nat := 120

/-- The characters matched by Python's regex class `\s` (ASCII fragment). -/
def isPySpace (c : Char) : Bool :=
  c = ' ' || c = '\t' || c = '\n' || c = '\r' || c = '\x0b' || c = '\x0c'

/-! ## `ValidateISBN` (HimalayaGPUExtractor_Protected.py, lines 233-254) -/

/-- `re.sub(r'[\s\-]', '', ISBN.upper())`: uppercase, then delete every
whitespace character and hyphen. -/
def cleanISBNString (s : Str) : Str :=
  (s.map Char.toUpper).filter (fun c => !(isPySpace c || c = '-'))

/-- `re.match(r'^\d{9}[\dX]$', s)` on a string already known to have
length 10: nine digits followed by a digit or `X`. -/
def isISBN10Shape (s : Str) : Bool :=
  (s.take 9).all Char.isDigit &&
    (match s.get? 9 with
     | some c => c.isDigit || c = 'X'
     | none => false)

/-- One attempt of `re.search(r'(\d{9}[\dX]|\d{13})', s)` at the current
position: the first alternative `\d{9}[\dX]` is tried before `\d{13}`. -/
def isbnMatchAt (s : Str) : Option Str :=
  if 10 ≤ s.length && (s.take 9).all Char.isDigit &&
      (match s.get? 9 with
       | some c => c.isDigit || c = 'X'
       | none => false) then
    some (s.take 10)
  else if 13 ≤ s.length && (s.take 13).all Char.isDigit then
    some (s.take 13)
  else
    none

/-- `re.search(r'(\d{9}[\dX]|\d{13})', s)`: scan positions left to right,
return the first match. -/
def isbnSearch : Str → Option Str
  | [] => none
  | c :: cs =>
    match isbnMatchAt (c :: cs) with
    | some r => some r
    | none => isbnSearch cs

/-- `ValidateISBN` from `HimalayaGPUExtractor_Protected.py`:
empty input is rejected; the cleaned string is accepted verbatim at
length 10 (nine digits then digit-or-`X`) or length 13 (all digits);
otherwise, at cleaned lengths 10..17, the first embedded
`\d{9}[\dX]` or `\d{13}` substring is returned; everything else is
rejected (`[]` models Python's returned `''`). -/
def ValidateISBN (s : Str) : Str :=
  if s = [] then []
  else if (cleanISBNString s).length = 10 then
    if isISBN10Shape (cleanISBNString s) then cleanISBNString s else []
  else if (cleanISBNString s).length = 13 then
    if (cleanISBNString s).all Char.isDigit then cleanISBNString s else []
  else if 10 ≤ (cleanISBNString s).length ∧ (cleanISBNString s).length ≤ 17 then
    match isbnSearch (cleanISBNString s) with
    | some r => r
    | none => []
  else []

example : ValidateISBN ("978-0-13-468599-1".toList) = "9780134685991".toList := by decide

example : ValidateISBN ("12345678901234".toList) = "1234567890".toList := by decide

example : ValidateISBN ("0-306-40615-2".toList) = "0306406152".toList := by decide

example : ValidateISBN ("030640615X".toList) = "030640615X".toList := by decide

example : ValidateISBN ("12".toList) = [] := by decide

theorem isbnMatchAt_some_length {s r : Str} (h : isbnMatchAt s = some r) :
    r.length = 10 ∨ r.length = 13 := by
  unfold isbnMatchAt at h
  split_ifs at h with h1 h2
  · left
    cases h
    simp only [Bool.and_eq_true, decide_eq_true_eq] at h1
    simp [List.length_take]
    omega
  · right
    cases h
    simp only [Bool.and_eq_true, decide_eq_true_eq] at h2
    simp [List.length_take]
    omega

theorem isbnSearch_some_length : ∀ {s r : Str}, isbnSearch s = some r →
    r.length = 10 ∨ r.length = 13 := by
  intro s
  induction s with
  | nil => intro r h; simp [isbnSearch] at h
  | cons c cs ih =>
    intro r h
    unfold isbnSearch at h
    cases hm : isbnMatchAt (c :: cs) with
    | some r' =>
      rw [hm] at h
      cases h
      exact isbnMatchAt_some_length hm
    | none =>
      rw [hm] at h
      exact ih h

theorem isbnSearch_ne_none_iff : ∀ s : Str,
    isbnSearch s ≠ none ↔ ∃ i, isbnMatchAt (s.drop i) ≠ none := by
  intro s
  induction s with
  | nil =>
    simp only [isbnSearch, List.drop_nil, ne_eq, not_true_eq_false, false_iff,
      not_exists, not_not]
    intro i
    rfl
  | cons c cs ih =>
    unfold isbnSearch
    cases hm : isbnMatchAt (c :: cs) with
    | some r =>
      simp only [ne_eq, reduceCtorEq, not_false_eq_true, true_iff]
      exact ⟨0, by simp [hm]⟩
    | none =>
      rw [ih]
      constructor
      · rintro ⟨i, hi⟩
        exact ⟨i + 1, by simpa using hi⟩
      · rintro ⟨i, hi⟩
        cases i with
        | zero => simp [hm] at hi
        | succ j => exact ⟨j, by simpa using hi⟩

/-- C5 counterexample: the all-digit string of stripped length 14 is
accepted by `ValidateISBN` (the embedded 10-character run is returned),
refuting "rejecting everything else" / "no string of any other stripped
length ... is ever stored". -/
theorem C5_counterexample :
    (cleanISBNString ("12345678901234".toList)).length = 14 ∧
    ValidateISBN ("12345678901234".toList) ≠ [] := by decide

/-- C5 (amended): `ValidateISBN` strips whitespace and hyphens (and
uppercases); it accepts the stripped string verbatim when it is 10
characters (nine digits then a digit or `X`) or exactly 13 digits;
in addition, at stripped lengths 11-17 it accepts any string containing
an embedded `\d{9}[\dX]` or `\d{13}` substring (returning that
substring); everything else is rejected.  `"978-0-13-468599-1"`
normalizes to `"9780134685991"`. -/
theorem C5_isbn_validation (s : Str) :
    (ValidateISBN s ≠ [] ↔
      ((cleanISBNString s).length = 10 ∧ isISBN10Shape (cleanISBNString s) = true) ∨
      ((cleanISBNString s).length = 13 ∧ (cleanISBNString s).all Char.isDigit = true) ∨
      (11 ≤ (cleanISBNString s).length ∧ (cleanISBNString s).length ≤ 17 ∧
        (cleanISBNString s).length ≠ 13 ∧
        ∃ i, isbnMatchAt ((cleanISBNString s).drop i) ≠ none)) ∧
    ValidateISBN ("978-0-13-468599-1".toList) = "9780134685991".toList := by
  refine ⟨?_, by decide⟩
  by_cases hs : s = []
  · subst hs
    simp [ValidateISBN, cleanISBNString]
  · unfold ValidateISBN
    rw [if_neg hs]
    by_cases h10 : (cleanISBNString s).length = 10
    · rw [if_pos h10]
      by_cases hsh : isISBN10Shape (cleanISBNString s) = true
      · rw [if_pos hsh]
        have hne : cleanISBNString s ≠ [] := by
          intro h; rw [h] at h10; simp at h10
        simp only [hne, ne_eq, not_false_eq_true, true_iff]
        exact Or.inl ⟨h10, hsh⟩
      · rw [if_neg hsh]
        simp only [ne_eq, not_true_eq_false, false_iff, not_or]
        refine ⟨fun h => hsh h.2, fun h => by omega, fun h => by omega⟩
    · rw [if_neg h10]
      by_cases h13 : (cleanISBNString s).length = 13
      · rw [if_pos h13]
        by_cases hd : (cleanISBNString s).all Char.isDigit = true
        · rw [if_pos hd]
          have hne : cleanISBNString s ≠ [] := by
            intro h; rw [h] at h13; simp at h13
          simp only [hne, ne_eq, not_false_eq_true, true_iff]
          exact Or.inr (Or.inl ⟨h13, hd⟩)
        · rw [if_neg hd]
          simp only [ne_eq, not_true_eq_false, false_iff, not_or]
          refine ⟨fun h => by omega, fun h => hd h.2, fun h => by omega⟩
      · rw [if_neg h13]
        by_cases hmid : 10 ≤ (cleanISBNString s).length ∧ (cleanISBNString s).length ≤ 17
        · rw [if_pos hmid]
          cases hsr : isbnSearch (cleanISBNString s) with
          | none =>
            simp only [ne_eq, not_true_eq_false, false_iff, not_or]
            refine ⟨fun h => by omega, fun h => by omega, fun h => ?_⟩
            have := (isbnSearch_ne_none_iff (cleanISBNString s)).mpr h.2.2.2
            exact this hsr
          | some r =>
            have hr : r ≠ [] := by
              rcases isbnSearch_some_length hsr with h | h <;>
                (intro he; rw [he] at h; simp at h)
            simp only [hr, ne_eq, not_false_eq_true, true_iff]
            refine Or.inr (Or.inr ⟨by omega, by omega, h13, ?_⟩)
            rw [← isbnSearch_ne_none_iff]
            rw [hsr]
            simp
        · rw [if_neg hmid]
          simp only [ne_eq, not_true_eq_false, false_iff, not_or]
          refine ⟨fun h => by omega, fun h => h13 h.1, fun h => by omega⟩

/-! ## Quality scoring (HimalayaGPUExtractor_Protected.py lines 862-883,
EnhancedPDFExtractor.py lines 553-566) -/

/-- Python `bool(x) * w`: the field-presence factors of the quality score. -/
def boolFactor (b : Bool) (w : ℚ) : ℚ := (if b then 1 else 0) * w

/-- The truthiness of the `Metadata` fields consulted by the Himalaya
quality scorer, plus the length of the combined text `AllText`. -/
structure QualityInputs where
  pdf_title : Bool
  pdf_author : Bool
  extracted_isbn : Bool
  extracted_lccn : Bool
  extracted_issn : Bool
  extracted_oclc : Bool
  extracted_year : Bool
  extracted_publisher : Bool
  first_page_text : Bool
  title_page_text : Bool
  copyright_page_text : Bool
  full_text_sample : Bool
  abstract_text : Bool
  tables_content : Bool
  ocr_used : Bool
  enhanced_extraction : Bool
  allTextLen : Nat

/-- The `QualityFactors` list of `HimalayaGPUExtractor_Protected.py`. -/
def QualityFactors (q : QualityInputs) : List ℚ :=
  [boolFactor q.pdf_title 10,
   boolFactor q.pdf_author 10,
   boolFactor q.extracted_isbn 20,
   boolFactor q.extracted_lccn 15,
   boolFactor q.extracted_issn 10,
   boolFactor q.extracted_oclc 5,
   boolFactor q.extracted_year 10,
   boolFactor q.extracted_publisher 10,
   boolFactor q.first_page_text 15,
   boolFactor q.title_page_text 10,
   boolFactor q.copyright_page_text 10,
   boolFactor q.full_text_sample 5,
   boolFactor q.abstract_text 5,
   boolFactor q.tables_content 5,
   boolFactor q.ocr_used 10,
   boolFactor q.enhanced_extraction 5,
   min ((q.allTextLen : ℚ) / 150) 15]

/-- `Metadata['extraction_quality_score'] = min(100, sum(QualityFactors))`
in `HimalayaGPUExtractor_Protected.py`. -/
def extraction_quality_score (q : QualityInputs) : ℚ :=
  min 100 (QualityFactors q).sum

/-- The truthiness of the fields consulted by `EnhancedPDFExtractor.py`'s
scorer, plus the length of `AllText`. -/
structure QualityInputsEnhanced where
  pdf_title : Bool
  pdf_author : Bool
  extracted_isbn : Bool
  extracted_year : Bool
  first_page_text : Bool
  title_page_text : Bool
  copyright_page_text : Bool
  full_text_sample : Bool
  allTextLen : Nat

/-- The `quality_factors` list of `EnhancedPDFExtractor.py` (note the
uncapped text-length bonus `len(AllText) / 100`). -/
def quality_factors (q : QualityInputsEnhanced) : List ℚ :=
  [boolFactor q.pdf_title 10,
   boolFactor q.pdf_author 10,
   boolFactor q.extracted_isbn 15,
   boolFactor q.extracted_year 10,
   boolFactor q.first_page_text 20,
   boolFactor q.title_page_text 15,
   boolFactor q.copyright_page_text 10,
   boolFactor q.full_text_sample 10,
   (q.allTextLen : ℚ) / 100]

/-- `Metadata['extraction_quality_score'] = min(100, sum(quality_factors))`
in `EnhancedPDFExtractor.py`. -/
def extraction_quality_score_enhanced (q : QualityInputsEnhanced) : ℚ :=
  min 100 (quality_factors q).sum

theorem boolFactor_nonneg (b : Bool) (w : ℚ) (hw : 0 ≤ w) : 0 ≤ boolFactor b w := by
  unfold boolFactor
  split_ifs <;> simp [hw]

/-- C8: in both extractor variants the quality score always lies in the
closed interval `[0, 100]`: every additive contribution is non-negative,
the Himalaya text-length bonus is capped at 15, and the sum is clamped
to 100. -/
theorem C8_quality_score_bounds (q : QualityInputs) (q' : QualityInputsEnhanced) :
    0 ≤ extraction_quality_score q ∧ extraction_quality_score q ≤ 100 ∧
    0 ≤ extraction_quality_score_enhanced q' ∧
    extraction_quality_score_enhanced q' ≤ 100 := by
  have hmin : (0 : ℚ) ≤ min ((q.allTextLen : ℚ) / 150) 15 :=
    le_min (by positivity) (by norm_num)
  have hdiv : (0 : ℚ) ≤ (q'.allTextLen : ℚ) / 100 := by positivity
  have hsum1 : (0 : ℚ) ≤ (QualityFactors q).sum := by
    apply List.sum_nonneg
    intro x hx
    simp only [QualityFactors, List.mem_cons, List.not_mem_nil, or_false] at hx
    rcases hx with rfl | rfl | rfl | rfl | rfl | rfl | rfl | rfl | rfl | rfl |
      rfl | rfl | rfl | rfl | rfl | rfl | rfl
    case inr.inr.inr.inr.inr.inr.inr.inr.inr.inr.inr.inr.inr.inr.inr.inr =>
      exact hmin
    all_goals exact boolFactor_nonneg _ _ (by norm_num)
  have hsum2 : (0 : ℚ) ≤ (quality_factors q').sum := by
    apply List.sum_nonneg
    intro x hx
    simp only [quality_factors, List.mem_cons, List.not_mem_nil, or_false] at hx
    rcases hx with rfl | rfl | rfl | rfl | rfl | rfl | rfl | rfl | rfl
    case inr.inr.inr.inr.inr.inr.inr.inr => exact hdiv
    all_goals exact boolFactor_nonneg _ _ (by norm_num)
  exact ⟨le_min (by norm_num) hsum1, min_le_left _ _,
    le_min (by norm_num) hsum2, min_le_left _ _⟩

/-! ## `TimeoutProtected` (HimalayaGPUExtractor_Protected.py, lines 72-99)

The decorator's `Wrapper` binds local names `Result = [None]` and
`Exception = [None]`, then runs `Target` in a worker thread.  `Target`
executes `try: Result[0] = Func(...) except Exception as E: Exception[0] = E`.
We embed Python's lexical name resolution (local scope, then the
enclosing `Wrapper` scope, then builtins) and the rule that an `except`
clause whose expression is not an exception class does not enter its
handler (the evaluation raises a `TypeError`, which escapes the worker
thread without touching the slots). -/

/-- Python runtime values relevant to the wrapper (`vList1` is a
one-element Python list such as `[None]`). -/
inductive PyVal where
  | vNone : PyVal
  | vList1 (elem : PyVal) : PyVal
  | vExcClass : PyVal
  | vExcInstance (msg : Str) : PyVal
deriving DecidableEq

/-- Python truthiness of the values above (`if Exception[0]:`). -/
def pyTruthy : PyVal → Bool
  | .vNone => false
  | .vList1 _ => true
  | .vExcClass => true
  | .vExcInstance _ => true

/-- Name lookup through a chain of scopes, innermost first (LEGB). -/
def lookupChain : List (List (Str × PyVal)) → Str → Option PyVal
  | [], _ => none
  | scope :: rest, n =>
    match scope.find? (fun p => p.1 == n) with
    | some p => some p.2
    | none => lookupChain rest n

/-- The scope chain seen by `Target`'s `except Exception` clause: `Target`'s
own local scope binds nothing, the enclosing `Wrapper` scope binds
`Result = [None]` and `Exception = [None]`, and the builtin scope binds
the class `Exception`. -/
def targetScopeChain : List (List (Str × PyVal)) :=
  [[],
   [("Result".toList, PyVal.vList1 PyVal.vNone),
    ("Exception".toList, PyVal.vList1 PyVal.vNone)],
   [("Exception".toList, PyVal.vExcClass)]]

/-- Whether `except <v> as E:` enters its handler for a raised exception:
only when `v` is an exception class (builtin `Exception` catches every
error raised by `Func`); for any other value the clause itself raises a
`TypeError` and the handler body never runs. -/
def exceptCatches : Option PyVal → Bool
  | some PyVal.vExcClass => true
  | _ => false

/-- The outcome of calling `Func(*Args, **Kwargs)`. -/
inductive FuncOutcome where
  | ret (v : PyVal) : FuncOutcome
  | raiseExc (msg : Str) : FuncOutcome

/-- The cells `Result[0]` and `Exception[0]` after `Target` has run. -/
structure TargetSlots where
  result : PyVal
  stored : PyVal
deriving DecidableEq

/-- Running `Target`: on a normal return the result slot is filled; on an
exception the handler is entered only if the name `Exception` resolves to
an exception class - otherwise both slots keep their initial `None`. -/
def runTarget (outcome : FuncOutcome) : TargetSlots :=
  match outcome with
  | .ret v => { result := v, stored := PyVal.vNone }
  | .raiseExc msg =>
    if exceptCatches (lookupChain targetScopeChain ("Exception".toList)) then
      { result := PyVal.vNone, stored := PyVal.vExcInstance msg }
    else
      { result := PyVal.vNone, stored := PyVal.vNone }

/-- What `Wrapper` does after joining the worker thread. -/
inductive WrapperOutcome where
  | timedOutRaise : WrapperOutcome
  | reraise (v : PyVal) : WrapperOutcome
  | returns (v : PyVal) : WrapperOutcome
deriving DecidableEq

/-- `Wrapper` from `TimeoutProtected`: raise `TimeoutError` if the thread
is still alive after the join, re-raise `Exception[0]` if it is truthy,
otherwise return `Result[0]`. -/
def TimeoutProtectedWrapper (outcome : FuncOutcome)
    (finishedWithinTimeout : Bool) : WrapperOutcome :=
  if !finishedWithinTimeout then .timedOutRaise
  else
    let slots := runTarget outcome
    if pyTruthy slots.stored then .reraise slots.stored
    else .returns slots.result

/-- C10: inside `Target`, the name `Exception` resolves to `Wrapper`'s
local list `[None]` (shadowing the builtin class), so when the wrapped
function raises and finishes within the timeout the handler never stores
the exception and the wrapper returns `None` instead of re-raising. -/
theorem C10_timeout_wrapper_masks_exceptions (msg : Str) :
    lookupChain targetScopeChain ("Exception".toList) =
      some (PyVal.vList1 PyVal.vNone) ∧
    (runTarget (.raiseExc msg)).stored = PyVal.vNone ∧
    TimeoutProtectedWrapper (.raiseExc msg) true = .returns PyVal.vNone := by
  refine ⟨by decide, rfl, rfl⟩

/-! ## OCR escalation (HimalayaGPUExtractor_Protected.py, lines 669-729)

`TextQuality = len(' '.join(filter(None, [first, title, copyright])).strip())`
and OCR runs under `if TextQuality < 200:`. -/

/-- Python `' '.join(l)`: the parts separated by single spaces. -/
def joinWithSpace : List Str → Str
  | [] => []
  | [t] => t
  | t :: ts => t ++ ' ' :: joinWithSpace ts

/-- Python `str.strip()`: remove leading and trailing whitespace. -/
def stripPy (s : Str) : Str :=
  ((s.dropWhile isPySpace).reverse.dropWhile isPySpace).reverse

/-- `TextQuality` as computed in `ExtractPDFMetadata`: the length of the
whitespace-stripped join of the non-empty page captures. -/
def TextQuality (first_page title_page copyright_page : Str) : Nat :=
  (stripPy (joinWithSpace
    ([first_page, title_page, copyright_page].filter (fun t => !t.isEmpty)))).length

/-- The guard `if TextQuality < 200:` that decides whether the Himalaya
OCR stage runs (and hence whether `ocr_used` is set). -/
def ocrTriggered (first_page title_page copyright_page : Str) : Bool :=
  TextQuality first_page title_page copyright_page < 200

theorem dropWhile_length_le (p : Char → Bool) (s : Str) :
    (s.dropWhile p).length ≤ s.length := by
  induction s with
  | nil => simp
  | cons c cs ih =>
    rw [List.dropWhile_cons]
    by_cases h : p c = true
    · simp only [h, if_true, List.length_cons]
      omega
    · simp [h]

theorem stripPy_length_le (s : Str) : (stripPy s).length ≤ s.length := by
  unfold stripPy
  calc ((s.dropWhile isPySpace).reverse.dropWhile isPySpace).reverse.length
      = ((s.dropWhile isPySpace).reverse.dropWhile isPySpace).length := by
        rw [List.length_reverse]
    _ ≤ (s.dropWhile isPySpace).reverse.length := dropWhile_length_le _ _
    _ = (s.dropWhile isPySpace).length := by rw [List.length_reverse]
    _ ≤ s.length := dropWhile_length_le _ _

theorem joinWithSpace_length_le : ∀ l : List Str,
    (joinWithSpace l).length ≤ (l.map List.length).sum + l.length := by
  intro l
  induction l with
  | nil => simp [joinWithSpace]
  | cons t ts ih =>
    cases ts with
    | nil => simp [joinWithSpace]
    | cons u us =>
      simp only [joinWithSpace, List.length_append, List.length_cons,
        List.map_cons, List.sum_cons] at ih ⊢
      omega

theorem sum_map_length_filter_le (p : Str → Bool) (l : List Str) :
    ((l.filter p).map List.length).sum ≤ (l.map List.length).sum := by
  induction l with
  | nil => simp
  | cons t ts ih =>
    rw [List.filter_cons]
    by_cases h : p t = true
    · simp only [h, if_true, List.map_cons, List.sum_cons]
      omega
    · simp only [h, if_false, List.map_cons, List.sum_cons]
      simp only [Bool.false_eq_true, if_false]
      omega

set_option maxRecDepth 4000 in
/-- C7 counterexample: a document whose structured extraction yields 500
characters (all whitespace, here in the first-page capture) still
triggers OCR, because the code strips whitespace before measuring -
refuting "for every document yielding 500 characters, OCR does not
run". -/
theorem C7_counterexample :
    (List.replicate 500 ' ').length + ([] : Str).length + ([] : Str).length = 500 ∧
    ocrTriggered (List.replicate 500 ' ') [] [] = true := by decide

set_option maxRecDepth 4000 in
/-- C7 (amended): OCR is invoked exactly when the whitespace-stripped
accumulated text across the first-page, title-page and copyright-page
captures is below the 200-character threshold; in particular any
document whose three captures total fewer than 100 characters triggers
OCR, and any document whose stripped accumulated text has at least 200
characters (e.g. 500 characters of non-whitespace text) does not. -/
theorem C7_ocr_escalation (first_page title_page copyright_page : Str) :
    (first_page.length + title_page.length + copyright_page.length < 100 →
      ocrTriggered first_page title_page copyright_page = true) ∧
    (200 ≤ TextQuality first_page title_page copyright_page →
      ocrTriggered first_page title_page copyright_page = false) ∧
    ocrTriggered (List.replicate 500 'a') [] [] = false := by
  refine ⟨?_, ?_, by decide⟩
  · intro h
    have h1 : TextQuality first_page title_page copyright_page <
        first_page.length + title_page.length + copyright_page.length + 4 := by
      unfold TextQuality
      have h2 := stripPy_length_le (joinWithSpace
        ([first_page, title_page, copyright_page].filter (fun t => !t.isEmpty)))
      have h3 := joinWithSpace_length_le
        ([first_page, title_page, copyright_page].filter (fun t => !t.isEmpty))
      have h4 := sum_map_length_filter_le (fun t => !t.isEmpty)
        [first_page, title_page, copyright_page]
      have h5 := List.length_filter_le (fun t : Str => !t.isEmpty)
        [first_page, title_page, copyright_page]
      simp only [List.map_cons, List.map_nil, List.sum_cons, List.sum_nil,
        List.length_cons, List.length_nil] at h4 h5
      omega
    unfold ocrTriggered
    simp only [decide_eq_true_eq]
    omega
  · intro h
    unfold ocrTriggered
    simp only [decide_eq_false_iff_not, not_lt]
    omega

set_option maxRecDepth 4000 in
/-- Closed instantiation of `C7_ocr_escalation`: a 2-character document
triggers OCR; 300 non-whitespace characters do not. -/
theorem C7_ocr_escalation_witness :
    (("ab".toList.length + ([] : Str).length + ([] : Str).length < 100) ∧
      ocrTriggered ("ab".toList) [] [] = true) ∧
    (200 ≤ TextQuality (List.replicate 300 'a') [] [] ∧
      ocrTriggered (List.replicate 300 'a') [] [] = false) :=
  ⟨⟨by decide, (C7_ocr_escalation ("ab".toList) [] []).1 (by decide)⟩,
   ⟨by decide, (C7_ocr_escalation (List.replicate 300 'a') [] []).2.1 (by decide)⟩⟩

/-! ## Text-capture fields and truncation
(HimalayaGPUExtractor_Protected.py: page loop lines 624-655, PDFPlumber
tables lines 695-715, OCR page loop lines 896-953, OCR merge lines
675-687) -/

/-- Python substring test `needle in hay`. -/
def containsSub (needle : Str) : Str → Bool
  | [] => needle.isEmpty
  | c :: cs => needle.isPrefixOf (c :: cs) || containsSub needle cs

/-- Python `str.lower()`. -/
def lowerStr (s : Str) : Str := s.map Char.toLower

/-- The text-capture fields of the `Metadata` dictionary. -/
structure TextFields where
  first_page_text : Str
  title_page_text : Str
  copyright_page_text : Str
  table_of_contents : Str
  abstract_text : Str
  full_text_sample : Str
  tables_content : Str

/-- All text-capture fields start as `''`. -/
def emptyTextFields : TextFields :=
  { first_page_text := [], title_page_text := [], copyright_page_text := [],
    table_of_contents := [], abstract_text := [], full_text_sample := [],
    tables_content := [] }

/-- First statement of the PyMuPDF page loop body: page 0 fills
`first_page_text`; otherwise page 1 or a page mentioning "title" fills
`title_page_text` if still empty. -/
def updFirstTitle (m : TextFields) (pageNum : Nat) (pageText : Str) : TextFields :=
  if pageNum = 0 then
    { m with first_page_text := pageText.take MAX_TEXT_LENGTH }
  else if pageNum = 1 || containsSub ("title".toList) (lowerStr pageText) then
    if m.title_page_text.isEmpty then
      { m with title_page_text := pageText.take MAX_TEXT_LENGTH }
    else m
  else m

/-- Copyright-page detection: a page mentioning "copyright" or `©`
overwrites `copyright_page_text`. -/
def updCopyright (m : TextFields) (pageText : Str) : TextFields :=
  if containsSub ("copyright".toList) (lowerStr pageText) || pageText.contains '©' then
    { m with copyright_page_text := pageText.take MAX_TEXT_LENGTH }
  else m

/-- Table-of-contents detection: a longer contents/chapter/index page
replaces `table_of_contents`. -/
def updToc (m : TextFields) (pageText : Str) : TextFields :=
  if containsSub ("contents".toList) (lowerStr pageText) ||
      containsSub ("chapter".toList) (lowerStr pageText) ||
      containsSub ("index".toList) (lowerStr pageText) then
    if m.table_of_contents.length < pageText.length then
      { m with table_of_contents := pageText.take MAX_TEXT_LENGTH }
    else m
  else m

/-- Abstract detection among the first `pageLimit` pages (5 for PyMuPDF,
3 for OCR); stores half the global maximum. -/
def updAbstract (m : TextFields) (pageNum pageLimit : Nat) (pageText : Str) : TextFields :=
  if containsSub ("abstract".toList) (lowerStr pageText) && pageNum < pageLimit then
    { m with abstract_text := pageText.take (MAX_TEXT_LENGTH / 2) }
  else m

/-- One iteration of the PyMuPDF page-classification loop of
`ExtractPDFMetadata` (lines 624-651): the four classification
statements in source order, each truncating to `MAX_TEXT_LENGTH`
(the abstract to half of it). -/
def processPage (m : TextFields) (pageNum : Nat) (pageText : Str) : TextFields :=
  updAbstract (updToc (updCopyright (updFirstTitle m pageNum pageText) pageText) pageText)
    pageNum 5 pageText

/-- The PyMuPDF page loop, indexed from `pageNum`. -/
def processPagesLoop : TextFields → Nat → List Str → TextFields
  | m, _, [] => m
  | m, i, t :: ts => processPagesLoop (processPage m i t) (i + 1) ts

/-- Python `sep.join(l)` for an arbitrary separator string. -/
def pyJoin (sep : Str) : List Str → Str
  | [] => []
  | [t] => t
  | t :: ts => t ++ sep ++ pyJoin sep ts

/-- The PyMuPDF stage's text fields: classify
`min(MAX_PAGES_TO_PROCESS, len(Doc))` pages, then set
`full_text_sample = ' '.join(AllExtractedText)[:MAX_TEXT_LENGTH]`. -/
def pymupdfTextFields (pages : List Str) : TextFields :=
  let used := pages.take MAX_PAGES_TO_PROCESS
  let m := processPagesLoop emptyTextFields 0 used
  { m with full_text_sample := (pyJoin [' '] used).take MAX_TEXT_LENGTH }

/-- First statement of the OCR page loop body: page 0 fills
`first_page_text`, page 1 fills `title_page_text` unconditionally. -/
def updFirstTitleOCR (m : TextFields) (pageNum : Nat) (pageText : Str) : TextFields :=
  if pageNum = 0 then
    { m with first_page_text := pageText.take MAX_TEXT_LENGTH }
  else if pageNum = 1 then
    { m with title_page_text := pageText.take MAX_TEXT_LENGTH }
  else m

/-- Last statement of the OCR page loop body: the first page keeps the
full-text sample slot (`if not OCRText['full_text_sample']`). -/
def updFullSampleOCR (m : TextFields) (pageText : Str) : TextFields :=
  if m.full_text_sample.isEmpty then
    { m with full_text_sample := pageText.take MAX_TEXT_LENGTH }
  else m

/-- One iteration of the OCR page-classification loop of
`ExtractTextWithHimalayaOCR` (lines 923-956). -/
def ocrPage (m : TextFields) (pageNum : Nat) (pageText : Str) : TextFields :=
  updFullSampleOCR
    (updAbstract (updToc (updCopyright (updFirstTitleOCR m pageNum pageText) pageText) pageText)
      pageNum 3 pageText) pageText

/-- The OCR page loop, over `min(4, len(Pages))` recognized pages. -/
def ocrTextFields (ocrPages : List Str) : TextFields :=
  (ocrPages.take 4).foldl
    (fun (acc : TextFields × Nat) t => (ocrPage acc.1 acc.2 t, acc.2 + 1))
    (emptyTextFields, 0) |>.1

/-- The OCR merge `if len(OCRData[Field]) > len(Metadata[Field])` for one
field: keep whichever text is longer (ties favour the existing value). -/
def mergeField (existing ocr : Str) : Str :=
  if existing.length < ocr.length then ocr else existing

/-- Merging the OCR dictionary into `Metadata` (lines 675-680):
`tables_content` is not an OCR field and is untouched. -/
def mergeOCR (m o : TextFields) : TextFields :=
  { first_page_text := mergeField m.first_page_text o.first_page_text,
    title_page_text := mergeField m.title_page_text o.title_page_text,
    copyright_page_text := mergeField m.copyright_page_text o.copyright_page_text,
    table_of_contents := mergeField m.table_of_contents o.table_of_contents,
    abstract_text := mergeField m.abstract_text o.abstract_text,
    full_text_sample := mergeField m.full_text_sample o.full_text_sample,
    tables_content := m.tables_content }

/-- The text-capture fields of one produced `ExtractionResult`: the
PyMuPDF page classification, optionally the PDFPlumber tables
(`'\n'.join(TablesContent)[:MAX_TEXT_LENGTH]`), optionally the merged
OCR captures. -/
def extractTextFieldsHimalaya (pages : List Str) (tables : Option (List Str))
    (ocrPages : Option (List Str)) : TextFields :=
  let m0 := pymupdfTextFields pages
  let m1 :=
    match tables with
    | some tc => { m0 with tables_content := (pyJoin ['\n'] tc).take MAX_TEXT_LENGTH }
    | none => m0
  match ocrPages with
  | some ops => mergeOCR m1 (ocrTextFields ops)
  | none => m1

/-- The C3 invariant: every text-capture field within bound. -/
def BoundedFields (m : TextFields) : Prop :=
  m.first_page_text.length ≤ MAX_TEXT_LENGTH ∧
  m.title_page_text.length ≤ MAX_TEXT_LENGTH ∧
  m.copyright_page_text.length ≤ MAX_TEXT_LENGTH ∧
  m.table_of_contents.length ≤ MAX_TEXT_LENGTH ∧
  m.abstract_text.length ≤ MAX_TEXT_LENGTH ∧
  m.full_text_sample.length ≤ MAX_TEXT_LENGTH ∧
  m.tables_content.length ≤ MAX_TEXT_LENGTH

theorem take_length_le (n : Nat) (l : Str) : (l.take n).length ≤ n := by
  simp [List.length_take]

theorem updFirstTitle_bounded {m : TextFields} (hm : BoundedFields m)
    (i : Nat) (t : Str) : BoundedFields (updFirstTitle m i t) := by
  obtain ⟨h1, h2, h3, h4, h5, h6, h7⟩ := hm
  have ht := take_length_le MAX_TEXT_LENGTH t
  unfold updFirstTitle
  split_ifs <;> exact ⟨by simp_all, by simp_all, by simp_all, by simp_all,
    by simp_all, by simp_all, by simp_all⟩

theorem updFirstTitleOCR_bounded {m : TextFields} (hm : BoundedFields m)
    (i : Nat) (t : Str) : BoundedFields (updFirstTitleOCR m i t) := by
  obtain ⟨h1, h2, h3, h4, h5, h6, h7⟩ := hm
  have ht := take_length_le MAX_TEXT_LENGTH t
  unfold updFirstTitleOCR
  split_ifs <;> exact ⟨by simp_all, by simp_all, by simp_all, by simp_all,
    by simp_all, by simp_all, by simp_all⟩

theorem updCopyright_bounded {m : TextFields} (hm : BoundedFields m)
    (t : Str) : BoundedFields (updCopyright m t) := by
  obtain ⟨h1, h2, h3, h4, h5, h6, h7⟩ := hm
  have ht := take_length_le MAX_TEXT_LENGTH t
  unfold updCopyright
  split_ifs <;> exact ⟨by simp_all, by simp_all, by simp_all, by simp_all,
    by simp_all, by simp_all, by simp_all⟩

theorem updToc_bounded {m : TextFields} (hm : BoundedFields m)
    (t : Str) : BoundedFields (updToc m t) := by
  obtain ⟨h1, h2, h3, h4, h5, h6, h7⟩ := hm
  have ht := take_length_le MAX_TEXT_LENGTH t
  unfold updToc
  split_ifs <;> exact ⟨by simp_all, by simp_all, by simp_all, by simp_all,
    by simp_all, by simp_all, by simp_all⟩

theorem updAbstract_bounded {m : TextFields} (hm : BoundedFields m)
    (i k : Nat) (t : Str) : BoundedFields (updAbstract m i k t) := by
  obtain ⟨h1, h2, h3, h4, h5, h6, h7⟩ := hm
  have ht : (t.take (MAX_TEXT_LENGTH / 2)).length ≤ MAX_TEXT_LENGTH := by
    have h := take_length_le (MAX_TEXT_LENGTH / 2) t
    have h2 : MAX_TEXT_LENGTH / 2 ≤ MAX_TEXT_LENGTH := by simp [MAX_TEXT_LENGTH]
    omega
  unfold updAbstract
  split_ifs <;> exact ⟨by simp_all, by simp_all, by simp_all, by simp_all,
    by simp_all, by simp_all, by simp_all⟩

theorem updFullSampleOCR_bounded {m : TextFields} (hm : BoundedFields m)
    (t : Str) : BoundedFields (updFullSampleOCR m t) := by
  obtain ⟨h1, h2, h3, h4, h5, h6, h7⟩ := hm
  have ht := take_length_le MAX_TEXT_LENGTH t
  unfold updFullSampleOCR
  split_ifs <;> exact ⟨by simp_all, by simp_all, by simp_all, by simp_all,
    by simp_all, by simp_all, by simp_all⟩

theorem processPage_bounded {m : TextFields} (hm : BoundedFields m)
    (i : Nat) (t : Str) : BoundedFields (processPage m i t) :=
  updAbstract_bounded
    (updToc_bounded (updCopyright_bounded (updFirstTitle_bounded hm i t) t) t) i 5 t

theorem processPagesLoop_bounded {m : TextFields} (hm : BoundedFields m) :
    ∀ (i : Nat) (ts : List Str), BoundedFields (processPagesLoop m i ts) := by
  intro i ts
  induction ts generalizing m i with
  | nil => exact hm
  | cons t ts ih => exact ih (processPage_bounded hm i t) (i + 1)

theorem ocrPage_bounded {m : TextFields} (hm : BoundedFields m)
    (i : Nat) (t : Str) : BoundedFields (ocrPage m i t) :=
  updFullSampleOCR_bounded
    (updAbstract_bounded
      (updToc_bounded (updCopyright_bounded (updFirstTitleOCR_bounded hm i t) t) t) i 3 t) t

theorem emptyTextFields_bounded : BoundedFields emptyTextFields := by
  unfold BoundedFields emptyTextFields
  simp [MAX_TEXT_LENGTH]

theorem ocrTextFields_bounded (ops : List Str) :
    BoundedFields (ocrTextFields ops) := by
  unfold ocrTextFields
  have key : ∀ (l : List Str) (st : TextFields × Nat), BoundedFields st.1 →
      BoundedFields (l.foldl
        (fun (acc : TextFields × Nat) t => (ocrPage acc.1 acc.2 t, acc.2 + 1)) st).1 := by
    intro l
    induction l with
    | nil => intro st h; exact h
    | cons t ts ih =>
      intro st h
      exact ih _ (ocrPage_bounded h st.2 t)
  exact key _ _ emptyTextFields_bounded

theorem mergeField_bounded {a b : Str} (ha : a.length ≤ MAX_TEXT_LENGTH)
    (hb : b.length ≤ MAX_TEXT_LENGTH) : (mergeField a b).length ≤ MAX_TEXT_LENGTH := by
  unfold mergeField
  split_ifs <;> assumption

/-- C3: every text-capture field of every produced `ExtractionResult`
(first page, title page, copyright page, table of contents, abstract,
full-text sample, tables) has length at most `MAX_TEXT_LENGTH`,
whatever the page texts, table texts and OCR texts are. -/
theorem C3_text_fields_bounded (pages : List Str) (tables : Option (List Str))
    (ocrPages : Option (List Str)) :
    BoundedFields (extractTextFieldsHimalaya pages tables ocrPages) := by
  unfold extractTextFieldsHimalaya
  have h0 : BoundedFields (pymupdfTextFields pages) := by
    unfold pymupdfTextFields
    have hl := processPagesLoop_bounded emptyTextFields_bounded 0
      (pages.take MAX_PAGES_TO_PROCESS)
    obtain ⟨h1, h2, h3, h4, h5, h6, h7⟩ := hl
    exact ⟨h1, h2, h3, h4, h5,
      take_length_le MAX_TEXT_LENGTH _, h7⟩
  obtain ⟨h1, h2, h3, h4, h5, h6, h7⟩ := h0
  cases tables with
  | none =>
    cases ocrPages with
    | none => exact ⟨h1, h2, h3, h4, h5, h6, h7⟩
    | some ops =>
      obtain ⟨o1, o2, o3, o4, o5, o6, o7⟩ := ocrTextFields_bounded ops
      exact ⟨mergeField_bounded h1 o1, mergeField_bounded h2 o2,
        mergeField_bounded h3 o3, mergeField_bounded h4 o4,
        mergeField_bounded h5 o5, mergeField_bounded h6 o6, h7⟩
  | some tc =>
    cases ocrPages with
    | none =>
      exact ⟨h1, h2, h3, h4, h5, h6, take_length_le MAX_TEXT_LENGTH _⟩
    | some ops =>
      obtain ⟨o1, o2, o3, o4, o5, o6, o7⟩ := ocrTextFields_bounded ops
      exact ⟨mergeField_bounded h1 o1, mergeField_bounded h2 o2,
        mergeField_bounded h3 o3, mergeField_bounded h4 o4,
        mergeField_bounded h5 o5, mergeField_bounded h6 o6,
        take_length_le MAX_TEXT_LENGTH _⟩

/-! ## Identifier mining by priority tiers
(HimalayaGPUExtractor_Protected.py, lines 748-773)

`SearchTexts = [(CopyrightText, 3), (TitleText, 2), (AllText[:25000], 1)]`
and for each pattern of `ISBN_PATTERNS` the matches are validated with
`ValidateISBN`; the first validated match of the first non-empty text
wins.  The regex pattern list is a parameter (`pats`, one `findall`
function per compiled pattern). -/

/-- Inner match loop: `for Match in Matches: ISBN = ValidateISBN(Match);
if ISBN: ... break` - the first match whose validation is non-empty. -/
def firstValidated (validate : Str → Str) : List Str → Str
  | [] => []
  | m :: ms =>
    if validate m ≠ [] then validate m else firstValidated validate ms

/-- Pattern loop: `for Pattern in ISBN_PATTERNS: Matches =
Pattern.findall(Text) ...` - first pattern yielding a validated match. -/
def extractFromPatterns (pats : List (Str → List Str)) (validate : Str → Str)
    (text : Str) : Str :=
  match pats with
  | [] => []
  | p :: ps =>
    if firstValidated validate (p text) ≠ [] then firstValidated validate (p text)
    else extractFromPatterns ps validate text

/-- Tier loop: `for Text, Priority in SearchTexts: if Text and not
Metadata['extracted_isbn']: ...` - the first non-empty text whose
pattern scan validates wins; later texts are not consulted. -/
def extractByTiers (pats : List (Str → List Str)) (validate : Str → Str) :
    List Str → Str
  | [] => []
  | t :: ts =>
    if t ≠ [] then
      if extractFromPatterns pats validate t ≠ [] then
        extractFromPatterns pats validate t
      else extractByTiers pats validate ts
    else extractByTiers pats validate ts

/-- `Metadata['extracted_isbn']` as mined by `ExtractPDFMetadata`:
copyright-page text first, then title-page text, then the bounded slice
`AllText[:25000]` of the combined text. -/
def extracted_isbn (pats : List (Str → List Str))
    (copyrightText titleText allText : Str) : Str :=
  extractByTiers pats ValidateISBN [copyrightText, titleText, allText.take 25000]

/-- C4: the identifier miner consults copyright-page text first, then
title-page text, then a 25000-character slice of the general text, and
the first tier yielding a validated match wins: whenever the
copyright-page text yields validated ISBN `A`, the recorded
`extracted_isbn` is `A` - even when the general-text slice would yield a
different valid ISBN `B`. -/
theorem C4_identifier_tier_priority (pats : List (Str → List Str))
    (copyrightText titleText allText A B : Str)
    (hct : copyrightText ≠ [])
    (hA : extractFromPatterns pats ValidateISBN copyrightText = A)
    (hAne : A ≠ [])
    (hB : extractFromPatterns pats ValidateISBN (allText.take 25000) = B)
    (hBA : B ≠ A) :
    extracted_isbn pats copyrightText titleText allText = A ∧
    extracted_isbn pats copyrightText titleText allText ≠ B := by
  have hmain : extracted_isbn pats copyrightText titleText allText = A := by
    unfold extracted_isbn extractByTiers
    rw [if_pos hct, hA, if_pos hAne]
  exact ⟨hmain, by rw [hmain]; exact fun h => hBA h.symm⟩

/-- Closed instantiation of `C4_identifier_tier_priority`: with a pattern
returning the whole text as its sole match, a copyright page holding the
13-digit ISBN 9780000000000 beats a general text holding 0306406152. -/
theorem C4_identifier_tier_priority_witness :
    extracted_isbn [fun t => [t]] ("9780000000000".toList) []
      ("0306406152".toList) = "9780000000000".toList ∧
    extracted_isbn [fun t => [t]] ("9780000000000".toList) []
      ("0306406152".toList) ≠ "0306406152".toList :=
  C4_identifier_tier_priority [fun t => [t]] ("9780000000000".toList) []
    ("0306406152".toList) ("9780000000000".toList) ("0306406152".toList)
    (by decide) (by decide) (by decide) (by decide) (by decide)

/-! ## Resumable ledger and batch loop
(HimalayaGPUExtractor_Protected.py: `LoadExistingData` lines 501-514,
`ProcessAllPDFs` lines 966-1097, `AppendToCSV` lines 1099-1127)

`LoadExistingData` builds `ProcessedFiles` from the CSV column
`filename` via `str.replace('.pdf', '', regex=False)` - removing EVERY
occurrence of `.pdf`, not just a final extension - while
`ProcessAllPDFs` filters with `F.stem not in self.ProcessedFiles`. -/

/-- Python `str.replace(pat, rep)` with the given fuel (one unit per
consumed character; the pattern is non-empty here). -/
def replaceAllFuel (pat rep : Str) : Nat → Str → Str
  | _, [] => []
  | 0, s => s
  | fuel + 1, c :: cs =>
    if pat.isPrefixOf (c :: cs) then
      rep ++ replaceAllFuel pat rep fuel ((c :: cs).drop pat.length)
    else
      c :: replaceAllFuel pat rep fuel cs

/-- Python `s.replace(pat, rep)`: replace all non-overlapping
occurrences, left to right. -/
def pyReplace (s pat rep : Str) : Str := replaceAllFuel pat rep s.length s

/-- `pathlib.Path.stem`: the name without its last dot-suffix (a dot in
first position does not start a suffix). -/
def stemOf (name : Str) : Str :=
  match name.reverse.findIdx? (fun c => c == '.') with
  | some j =>
    if name.length - 1 - j = 0 then name else name.take (name.length - 1 - j)
  | none => name

example : stemOf ("book.pdf".toList) = "book".toList := by decide

example : stemOf ("a.pdf.pdf".toList) = "a.pdf".toList := by decide

/-- The literal `'.pdf'`. -/
def pdfExt : Str := ".pdf".toList

/-- The per-record metadata of a completed extraction that the claims
consult. -/
structure DocMetadata where
  pdf_title : Str
  extraction_quality_score : ℚ
  errors : Str
deriving DecidableEq

/-- One row of the output CSV ledger. -/
structure LedgerRecord where
  filename : Str
  pdf_title : Str
  extraction_quality_score : ℚ
  errors : Str
deriving DecidableEq

/-- How processing one document ends: a metadata dictionary, a
`TimeoutError` from the `TOTAL_PDF_TIMEOUT` wrapper, or some other
exception (the `except Exception` / `continue` path). -/
inductive DocOutcome where
  | ok (m : DocMetadata) : DocOutcome
  | timeout : DocOutcome
  | fail : DocOutcome
deriving DecidableEq

/-- The placeholder `CorruptedMetadata` appended on a whole-document
timeout (lines 1043-1078). -/
def corruptedRecord (name : Str) : LedgerRecord :=
  { filename := name,
    pdf_title := "CORRUPTED PDF - TIMEOUT".toList,
    extraction_quality_score := 0,
    errors := "Timeout after 120s - likely corrupted PDF structure".toList }

/-- The successful-path record appended by `AppendToCSV`. -/
def okRecord (name : Str) (m : DocMetadata) : LedgerRecord :=
  { filename := name,
    pdf_title := m.pdf_title,
    extraction_quality_score := m.extraction_quality_score,
    errors := m.errors }

/-- The `for FileIndex, PDFFile in enumerate(UnprocessedFiles, 1)` batch
loop: a successful extraction appends its record, a whole-document
timeout appends the corrupted placeholder, any other error appends
nothing; in every case the loop continues with the next file. -/
def processLoop (outcome : Str → DocOutcome) :
    List LedgerRecord → List Str → List LedgerRecord
  | ledger, [] => ledger
  | ledger, name :: rest =>
    match outcome name with
    | .ok m => processLoop outcome (ledger ++ [okRecord name m]) rest
    | .timeout => processLoop outcome (ledger ++ [corruptedRecord name]) rest
    | .fail => processLoop outcome ledger rest

/-- `LoadExistingData`: `set(ExistingDF['filename'].str.replace('.pdf',
'', regex=False))` (membership list; every `.pdf` occurrence removed). -/
def LoadExistingData (ledger : List LedgerRecord) : List Str :=
  ledger.map (fun r => pyReplace r.filename pdfExt [])

/-- The resume filter of `ProcessAllPDFs`:
`[F for F in PDFFiles if F.stem not in self.ProcessedFiles]`. -/
def UnprocessedFiles (files : List Str) (processed : List Str) : List Str :=
  files.filter (fun f => !(processed.contains (stemOf f)))

/-- One full run of `ProcessAllPDFs` over the directory listing `files`
against an existing ledger. -/
def ProcessAllPDFs (outcome : Str → DocOutcome) (ledger : List LedgerRecord)
    (files : List Str) : List LedgerRecord :=
  processLoop outcome ledger (UnprocessedFiles files (LoadExistingData ledger))

theorem processLoop_cons (outcome : Str → DocOutcome)
    (ledger : List LedgerRecord) (n : Str) (rest : List Str) :
    processLoop outcome ledger (n :: rest) =
      match outcome n with
      | .ok m => processLoop outcome (ledger ++ [okRecord n m]) rest
      | .timeout => processLoop outcome (ledger ++ [corruptedRecord n]) rest
      | .fail => processLoop outcome ledger rest := rfl

theorem processLoop_append_names (outcome : Str → DocOutcome) :
    ∀ (xs ys : List Str) (ledger : List LedgerRecord),
    processLoop outcome ledger (xs ++ ys) =
      processLoop outcome (processLoop outcome ledger xs) ys := by
  intro xs
  induction xs with
  | nil => intro ys ledger; rfl
  | cons x xt ih =>
    intro ys ledger
    rw [List.cons_append, processLoop_cons, processLoop_cons]
    cases outcome x
    · exact ih ys _
    · exact ih ys _
    · exact ih ys _

theorem processLoop_mem_of_mem (outcome : Str → DocOutcome) :
    ∀ (names : List Str) (ledger : List LedgerRecord) (r : LedgerRecord),
    r ∈ ledger → r ∈ processLoop outcome ledger names := by
  intro names
  induction names with
  | nil => intro ledger r hr; exact hr
  | cons n nt ih =>
    intro ledger r hr
    rw [processLoop_cons]
    cases outcome n
    · exact ih _ r (List.mem_append_left _ hr)
    · exact ih _ r (List.mem_append_left _ hr)
    · exact ih _ r hr

theorem processLoop_filenames (outcome : Str → DocOutcome) :
    ∀ (names : List Str) (ledger : List LedgerRecord),
    (∀ f ∈ names, outcome f ≠ .fail) →
    (processLoop outcome ledger names).map LedgerRecord.filename =
      ledger.map LedgerRecord.filename ++ names := by
  intro names
  induction names with
  | nil => intro ledger h; simp [processLoop]
  | cons n nt ih =>
    intro ledger h
    rw [processLoop_cons]
    cases ho : outcome n with
    | ok m =>
      rw [ih _ (fun f hf => h f (List.mem_cons_of_mem n hf))]
      simp [okRecord]
    | timeout =>
      rw [ih _ (fun f hf => h f (List.mem_cons_of_mem n hf))]
      simp [corruptedRecord]
    | fail => exact absurd ho (h n (List.mem_cons_self n nt))

/-- C2 counterexample: for the directory `["x.pdfy.pdf"]` (a filename
in which `.pdf` occurs other than as the final extension), a second run
over the unchanged directory and the ledger produced by the first run
still sees the file as unprocessed and appends a duplicate record -
refuting both "the set of filename stems loaded from the ledger" and
"the second run processes zero new documents". -/
theorem C2_counterexample :
    (UnprocessedFiles [("x.pdfy.pdf".toList)]
      (LoadExistingData (ProcessAllPDFs (fun _ => DocOutcome.ok ⟨[], 0, []⟩) []
        [("x.pdfy.pdf".toList)])) ≠ []) ∧
    (ProcessAllPDFs (fun _ => DocOutcome.ok ⟨[], 0, []⟩)
      (ProcessAllPDFs (fun _ => DocOutcome.ok ⟨[], 0, []⟩) []
        [("x.pdfy.pdf".toList)])
      [("x.pdfy.pdf".toList)]).length = 2 := by decide

/-- C2 (amended): provided every directory filename contains `.pdf`
only as its final extension (so that the ledger's
`replace('.pdf','')` normalization coincides with the stem) and the
first run handles every file (no non-timeout crash), rerunning the
pipeline on the unchanged directory is idempotent: the loaded set
covers every stem, the second run processes zero documents and appends
nothing. -/
theorem C2_idempotent_resume (outcome : Str → DocOutcome) (files : List Str)
    (hnames : ∀ f ∈ files, pyReplace f pdfExt [] = stemOf f)
    (hhandled : ∀ f ∈ files, outcome f ≠ .fail) :
    UnprocessedFiles files
      (LoadExistingData (ProcessAllPDFs outcome [] files)) = [] ∧
    ProcessAllPDFs outcome (ProcessAllPDFs outcome [] files) files =
      ProcessAllPDFs outcome [] files := by
  have hrun1 : ProcessAllPDFs outcome [] files = processLoop outcome [] files := by
    unfold ProcessAllPDFs UnprocessedFiles LoadExistingData
    simp
  have hstems : ∀ f ∈ files, stemOf f ∈
      LoadExistingData (ProcessAllPDFs outcome [] files) := by
    intro f hf
    unfold LoadExistingData
    rw [hrun1]
    have hmap : (processLoop outcome [] files).map LedgerRecord.filename =
        files := by
      have := processLoop_filenames outcome files [] hhandled
      simpa using this
    have : stemOf f ∈ files.map (fun g => pyReplace g pdfExt []) := by
      rw [← hnames f hf]
      exact List.mem_map_of_mem _ hf
    rw [← hmap] at this
    simpa [List.map_map, Function.comp] using this
  have hempty : UnprocessedFiles files
      (LoadExistingData (ProcessAllPDFs outcome [] files)) = [] := by
    unfold UnprocessedFiles
    rw [List.filter_eq_nil_iff]
    intro f hf
    have hmem := hstems f hf
    rw [Bool.not_eq_true', ← Bool.not_eq_true]
    intro hcontains
    exact absurd (List.elem_eq_true_of_mem hmem) hcontains
  refine ⟨hempty, ?_⟩
  show processLoop outcome (ProcessAllPDFs outcome [] files)
    (UnprocessedFiles files (LoadExistingData (ProcessAllPDFs outcome [] files))) =
    ProcessAllPDFs outcome [] files
  rw [hempty]
  rfl

/-- Closed instantiation of `C2_idempotent_resume` for the directory
`["book.pdf"]` with an always-successful extractor. -/
theorem C2_idempotent_resume_witness :
    UnprocessedFiles [("book.pdf".toList)]
      (LoadExistingData (ProcessAllPDFs (fun _ => DocOutcome.ok ⟨[], 0, []⟩) []
        [("book.pdf".toList)])) = [] ∧
    ProcessAllPDFs (fun _ => DocOutcome.ok ⟨[], 0, []⟩)
      (ProcessAllPDFs (fun _ => DocOutcome.ok ⟨[], 0, []⟩) [] [("book.pdf".toList)])
      [("book.pdf".toList)] =
      ProcessAllPDFs (fun _ => DocOutcome.ok ⟨[], 0, []⟩) [] [("book.pdf".toList)] :=
  C2_idempotent_resume (fun _ => DocOutcome.ok ⟨[], 0, []⟩) [("book.pdf".toList)]
    (by decide) (fun f hf h => DocOutcome.noConfusion h)

/-- C1 counterexample: the file `a.pdf.pdf` times out; the corrupted
placeholder IS appended, but on the next run the ledger normalization
(`"a.pdf.pdf".replace('.pdf','') = "a"`) misses the stem `a.pdf`, so
the document IS retried - refuting "it is not retried on the next
run". -/
theorem C1_counterexample :
    ProcessAllPDFs (fun _ => DocOutcome.timeout) [] [("a.pdf.pdf".toList)] =
      [corruptedRecord ("a.pdf.pdf".toList)] ∧
    UnprocessedFiles [("a.pdf.pdf".toList)]
      (LoadExistingData
        (ProcessAllPDFs (fun _ => DocOutcome.timeout) [] [("a.pdf.pdf".toList)])) =
      [("a.pdf.pdf".toList)] := by decide

/-- C1 (amended): whenever a document's whole-document extraction times
out, the batch loop appends the placeholder record (title "CORRUPTED
PDF - TIMEOUT", quality score 0, non-empty error field) and continues
with the remaining documents; provided the document's filename contains
`.pdf` only as its final extension, the ledger entry then shields it
from being reprocessed on any later run. -/
theorem C1_timeout_placeholder (outcome : Str → DocOutcome)
    (ledger : List LedgerRecord) (pre post : List Str) (f : Str)
    (hto : outcome f = .timeout) :
    (corruptedRecord f).pdf_title = "CORRUPTED PDF - TIMEOUT".toList ∧
    (corruptedRecord f).extraction_quality_score = 0 ∧
    (corruptedRecord f).errors ≠ [] ∧
    processLoop outcome ledger (pre ++ f :: post) =
      processLoop outcome (processLoop outcome ledger pre ++ [corruptedRecord f]) post ∧
    corruptedRecord f ∈ processLoop outcome ledger (pre ++ f :: post) ∧
    (pyReplace f pdfExt [] = stemOf f →
      ∀ files₂ : List Str, f ∉ UnprocessedFiles files₂
        (LoadExistingData (processLoop outcome ledger (pre ++ f :: post)))) := by
  have hstep : processLoop outcome ledger (pre ++ f :: post) =
      processLoop outcome (processLoop outcome ledger pre ++ [corruptedRecord f]) post := by
    rw [processLoop_append_names, processLoop_cons, hto]
  have hmem : corruptedRecord f ∈ processLoop outcome ledger (pre ++ f :: post) := by
    rw [hstep]
    exact processLoop_mem_of_mem outcome post _ _
      (List.mem_append_right _ (List.mem_singleton.mpr rfl))
  have herr : (corruptedRecord f).errors ≠ [] := by
    show "Timeout after 120s - likely corrupted PDF structure".toList ≠ []
    decide
  refine ⟨rfl, rfl, herr, hstep, hmem, ?_⟩
  intro hnorm files₂ hin
  unfold UnprocessedFiles at hin
  have hpred := List.of_mem_filter hin
  have hproc : stemOf f ∈
      LoadExistingData (processLoop outcome ledger (pre ++ f :: post)) := by
    unfold LoadExistingData
    have hq : pyReplace (corruptedRecord f).filename pdfExt [] = stemOf f := hnorm
    rw [← hq]
    exact List.mem_map_of_mem _ hmem
  rw [Bool.not_eq_true'] at hpred
  have hcontains := List.elem_eq_true_of_mem hproc
  simp only [List.contains] at hpred
  rw [hpred] at hcontains
  exact Bool.noConfusion hcontains

/-- Closed instantiation of `C1_timeout_placeholder`: `a.pdf` times out
in a directory also holding `b.pdf`; the placeholder is in the ledger
and `a.pdf` is excluded from a rerun. -/
theorem C1_timeout_placeholder_witness :
    (fun _ : Str => DocOutcome.timeout) ("a.pdf".toList) = DocOutcome.timeout ∧
    pyReplace ("a.pdf".toList) pdfExt [] = stemOf ("a.pdf".toList) ∧
    corruptedRecord ("a.pdf".toList) ∈
      processLoop (fun _ => DocOutcome.timeout) []
        ([] ++ ("a.pdf".toList) :: [("b.pdf".toList)]) ∧
    ("a.pdf".toList) ∉ UnprocessedFiles [("a.pdf".toList)]
      (LoadExistingData (processLoop (fun _ => DocOutcome.timeout) []
        ([] ++ ("a.pdf".toList) :: [("b.pdf".toList)]))) := by
  have h := C1_timeout_placeholder (fun _ => DocOutcome.timeout) [] []
    [("b.pdf".toList)] ("a.pdf".toList) rfl
  exact ⟨rfl, by decide, h.2.2.2.2.1, h.2.2.2.2.2 (by decide) [("a.pdf".toList)]⟩

/-! ## Page-level versus document-level timeouts
(HimalayaGPUExtractor_Protected.py: `PDFTimeout` lines 52-70, the
per-page `with PDFTimeout(PAGE_PROCESS_TIMEOUT, ...)` guard inside the
page loop lines 623-651, the stage-level `except TimeoutError` lines
663-665)

Two facts decide this claim.  Structurally, the page loop has no
per-page handler: a `TimeoutError` delivered inside the loop would
propagate past it to the stage-level `except TimeoutError`, abandoning
the rest of the PyMuPDF stage.  Semantically, that delivery never
happens: `PDFTimeout.__enter__` starts a `threading.Timer`, and on
expiry the timer invokes `_TimeoutHandler` in the TIMER's own worker
thread - the raised `TimeoutError` terminates that worker thread alone
(reported via `threading.excepthook`) and is never delivered in the
thread running the page loop.  Both facts are embedded below and the
unreachability of the abort is proved, so exceeding the page budget
leaves every page's contribution in place. -/

/-- The threads involved in one guarded page: the thread running the
page loop, and the `threading.Timer`'s worker thread. -/
inductive ThreadId where
  | mainThread : ThreadId
  | timerThread : ThreadId
deriving DecidableEq

/-- The thread in which `PDFTimeout._TimeoutHandler`'s `raise` is
delivered: `threading.Timer` always invokes its callback in its own
worker thread. -/
def timeoutHandlerThread : ThreadId := ThreadId.timerThread

/-- Whether an expired page budget interrupts the page loop: only an
exception delivered in the loop's own thread does. -/
def interruptsPageLoop (expired : Bool) : Bool :=
  expired && (timeoutHandlerThread == ThreadId.mainThread)

theorem interruptsPageLoop_false (expired : Bool) :
    interruptsPageLoop expired = false := by
  cases expired <;> rfl

/-- One page of a document together with whether its processing exceeds
`PAGE_PROCESS_TIMEOUT`. -/
structure TimedPage where
  text : Str
  overBudget : Bool
deriving DecidableEq

/-- The observable outcome of the PyMuPDF extraction stage. -/
structure PyMuPDFStage where
  fields : TextFields
  allText : List Str
  methods : List Str
  errorsList : List Str

/-- The PyMuPDF page loop under the per-page guard: if a page's
`TimeoutError` were delivered in the loop's thread it would abandon the
loop (there is no per-page handler; `true` marks the abort); since the
handler raises in the timer thread, `interruptsPageLoop` is never true
and every page is classified and appended to `AllExtractedText`. -/
def pymupdfLoopTimed : TextFields → List Str → Nat → List TimedPage →
    TextFields × List Str × Bool
  | m, acc, _, [] => (m, acc, false)
  | m, acc, i, p :: ps =>
    if interruptsPageLoop p.overBudget then (m, acc, true)
    else pymupdfLoopTimed (processPage m i p.text) (acc ++ [p.text]) (i + 1) ps

/-- The PyMuPDF stage of `ExtractPDFMetadata`: process up to
`MAX_PAGES_TO_PROCESS` pages; were the loop aborted, the stage-level
`except TimeoutError` would record `"PyMuPDF: Timeout"` and withhold
`full_text_sample` and the `'PyMuPDF'` method credit; otherwise the
sample is assembled and the method credited. -/
def pymupdfStageTimed (pages : List TimedPage) : PyMuPDFStage :=
  let r := pymupdfLoopTimed emptyTextFields [] 0 (pages.take MAX_PAGES_TO_PROCESS)
  if r.2.2 then
    { fields := r.1, allText := r.2.1, methods := [],
      errorsList := ["PyMuPDF: Timeout".toList] }
  else
    { fields := { r.1 with
        full_text_sample := (pyJoin [' '] r.2.1).take MAX_TEXT_LENGTH },
      allText := r.2.1, methods := ["PyMuPDF".toList], errorsList := [] }

theorem pymupdfLoopTimed_no_interrupt :
    ∀ (ps : List TimedPage) (m : TextFields) (acc : List Str) (i : Nat),
    pymupdfLoopTimed m acc i ps =
      (processPagesLoop m i (ps.map TimedPage.text),
       acc ++ ps.map TimedPage.text, false) := by
  intro ps
  induction ps with
  | nil => intro m acc i; simp [pymupdfLoopTimed, processPagesLoop]
  | cons p pt ih =>
    intro m acc i
    unfold pymupdfLoopTimed
    rw [interruptsPageLoop_false]
    simp only [Bool.false_eq_true, if_false]
    have hp : processPagesLoop m i (p.text :: pt.map TimedPage.text) =
        processPagesLoop (processPage m i p.text) (i + 1)
          (pt.map TimedPage.text) := rfl
    rw [ih, List.map_cons, hp]
    simp

/-- C9 counterexample: in the document `["AAAA", "BBBB", "CCCC"]` whose
second page exceeds the page budget, that page's text is still fully
processed - it appears in `AllExtractedText` and in the assembled
`full_text_sample`, no error is recorded and the method is credited -
refuting "exceeding a page-level processing budget aborts ... that
page's contribution". -/
theorem C9_counterexample :
    (pymupdfStageTimed [⟨"AAAA".toList, false⟩, ⟨"BBBB".toList, true⟩,
      ⟨"CCCC".toList, false⟩]).allText =
      [("AAAA".toList), ("BBBB".toList), ("CCCC".toList)] ∧
    (pymupdfStageTimed [⟨"AAAA".toList, false⟩, ⟨"BBBB".toList, true⟩,
      ⟨"CCCC".toList, false⟩]).fields.full_text_sample =
      "AAAA BBBB CCCC".toList ∧
    (pymupdfStageTimed [⟨"AAAA".toList, false⟩, ⟨"BBBB".toList, true⟩,
      ⟨"CCCC".toList, false⟩]).errorsList = [] ∧
    (pymupdfStageTimed [⟨"AAAA".toList, false⟩, ⟨"BBBB".toList, true⟩,
      ⟨"CCCC".toList, false⟩]).methods = ["PyMuPDF".toList] := by decide

/-- C9 (amended): exceeding a page-level processing budget has no
effect at all - `PDFTimeout`'s handler raises in the `threading.Timer`
worker thread, never in the thread running the page loop, so the
over-budget page's contribution is kept, every remaining page is still
processed, `"PyMuPDF: Timeout"` is never recorded and the method is
still credited, regardless of which pages exceed the budget.  Only the
whole-document budget - enforced by the thread-join-based
`TimeoutProtected` wrapper, which does raise in its caller - marks the
entire document failed/corrupted (the batch loop appends the corrupted
placeholder exactly on that outcome, and an ordinary record
otherwise). -/
theorem C9_page_budget_inert (pages : List TimedPage) :
    (pymupdfStageTimed pages).allText =
      (pages.take MAX_PAGES_TO_PROCESS).map TimedPage.text ∧
    (pymupdfStageTimed pages).errorsList = [] ∧
    (pymupdfStageTimed pages).methods = ["PyMuPDF".toList] ∧
    (pymupdfStageTimed pages).fields =
      { processPagesLoop emptyTextFields 0
          ((pages.take MAX_PAGES_TO_PROCESS).map TimedPage.text) with
        full_text_sample :=
          (pyJoin [' ']
            ((pages.take MAX_PAGES_TO_PROCESS).map TimedPage.text)).take
            MAX_TEXT_LENGTH } ∧
    (∀ (outcome : Str → DocOutcome) (ledger : List LedgerRecord) (f : Str),
      (∀ m : DocMetadata, outcome f = DocOutcome.ok m →
        processLoop outcome ledger [f] = ledger ++ [okRecord f m]) ∧
      (outcome f = DocOutcome.timeout →
        processLoop outcome ledger [f] = ledger ++ [corruptedRecord f])) := by
  have hstage : pymupdfStageTimed pages =
      { fields := { processPagesLoop emptyTextFields 0
            ((pages.take MAX_PAGES_TO_PROCESS).map TimedPage.text) with
          full_text_sample :=
            (pyJoin [' ']
              ((pages.take MAX_PAGES_TO_PROCESS).map TimedPage.text)).take
              MAX_TEXT_LENGTH },
        allText := (pages.take MAX_PAGES_TO_PROCESS).map TimedPage.text,
        methods := ["PyMuPDF".toList], errorsList := [] } := by
    unfold pymupdfStageTimed
    rw [pymupdfLoopTimed_no_interrupt]
    simp
  refine ⟨by rw [hstage], by rw [hstage], by rw [hstage], by rw [hstage], ?_⟩
  intro outcome ledger f
  constructor
  · intro m ho
    rw [processLoop_cons, ho]
    rfl
  · intro ho
    rw [processLoop_cons, ho]
    rfl

/-- Closed instantiation of `C9_page_budget_inert`: a document whose
single page exceeds the budget records no error, and the batch loop
appends the corrupted placeholder exactly on a whole-document
timeout. -/
theorem C9_page_budget_inert_witness :
    (pymupdfStageTimed [⟨"AA".toList, true⟩]).errorsList = [] ∧
    processLoop (fun _ => DocOutcome.timeout) [] [("d.pdf".toList)] =
      [] ++ [corruptedRecord ("d.pdf".toList)] :=
  ⟨(C9_page_budget_inert [⟨"AA".toList, true⟩]).2.1,
   ((C9_page_budget_inert [⟨"AA".toList, true⟩]).2.2.2.2
      (fun _ => DocOutcome.timeout) [] ("d.pdf".toList)).2 rfl⟩

/-! ## Year extraction
(HimalayaGPUExtractor_Protected.py: `YEAR_PATTERNS` lines 205-219,
candidate collection and sort lines 820-837)

The six compiled patterns are modelled as match-at-position functions
(consumed length and captured group); `pyFindall` reproduces
`re.findall`'s left-to-right non-overlapping scan.  Candidates carry
the PRIORITY OF THE SOURCE TEXT from `SearchTexts`, and the final sort
key is `(Priority, YearInt)` descending - the pattern that produced a
candidate plays no role in the ranking. -/

/-- `re.findall` scan with fuel: try the pattern at each position (the
previous character is tracked for `\b`); after a match resume right
after its end, otherwise advance one character. -/
def findallStep (matchAt : Option Char → Str → Option (Nat × Str)) :
    Nat → Option Char → Str → List Str
  | 0, _, _ => []
  | _ + 1, _, [] => []
  | fuel + 1, prev, c :: cs =>
    match matchAt prev (c :: cs) with
    | some (len, cap) =>
      let len1 := max len 1
      cap :: findallStep matchAt fuel ((c :: cs).take len1).getLast?
        ((c :: cs).drop len1)
    | none => findallStep matchAt fuel (some c) cs

/-- `Pattern.findall(s)` for one of the year patterns. -/
def pyFindall (matchAt : Option Char → Str → Option (Nat × Str)) (s : Str) :
    List Str :=
  findallStep matchAt s.length none s

/-- Four consecutive digits at the current position (`\d{4}`). -/
def takeDigits4 (s : Str) : Option Str :=
  if (s.take 4).length = 4 && (s.take 4).all Char.isDigit then some (s.take 4)
  else none

/-- `©\s*(\d{4})`. -/
def matchCopyrightSymbol (_ : Option Char) (s : Str) : Option (Nat × Str) :=
  match s with
  | '©' :: rest =>
    let ws := (rest.takeWhile isPySpace).length
    match takeDigits4 (rest.drop ws) with
    | some d => some (1 + ws + 4, d)
    | none => none
  | _ => none

/-- `Copyright[:\s]*©?\s*(\d{4})` with `re.IGNORECASE`. -/
def matchCopyrightWord (_ : Option Char) (s : Str) : Option (Nat × Str) :=
  if lowerStr (s.take 9) = "copyright".toList then
    let rest := s.drop 9
    let k1 := (rest.takeWhile (fun c => c = ':' || isPySpace c)).length
    let rest1 := rest.drop k1
    match rest1 with
    | '©' :: r =>
      let k3 := (r.takeWhile isPySpace).length
      match takeDigits4 (r.drop k3) with
      | some d => some (9 + k1 + 1 + k3 + 4, d)
      | none => none
    | _ =>
      let k3 := (rest1.takeWhile isPySpace).length
      match takeDigits4 (rest1.drop k3) with
      | some d => some (9 + k1 + k3 + 4, d)
      | none => none
  else none

/-- The lazy gap of `...[^.\n]*?(\d{4})`: the least skip reaching four
digits without crossing `.` or a newline; returns consumed length
(skip + 4) and the capture. -/
def findDigits4Lazy : Nat → Str → Option (Nat × Str)
  | _, [] => none
  | 0, _ => none
  | fuel + 1, c :: cs =>
    match takeDigits4 (c :: cs) with
    | some d => some (4, d)
    | none =>
      if c = '.' || c = '\n' then none
      else
        match findDigits4Lazy fuel cs with
        | some (n, d) => some (n + 1, d)
        | none => none

/-- `Published[^.\n]*?(\d{4})` / `Publication[^.\n]*?(\d{4})` with
`re.IGNORECASE` (the keyword is the parameter). -/
def matchKeywordYear (word : Str) (_ : Option Char) (s : Str) :
    Option (Nat × Str) :=
  if lowerStr (s.take word.length) = lowerStr word then
    match findDigits4Lazy (s.drop word.length).length (s.drop word.length) with
    | some (n, d) => some (word.length + n, d)
    | none => none
  else none

/-- `(\d{4})\s+edition` with `re.IGNORECASE`. -/
def matchEditionYear (_ : Option Char) (s : Str) : Option (Nat × Str) :=
  match takeDigits4 s with
  | some d =>
    let rest := s.drop 4
    let k := (rest.takeWhile isPySpace).length
    if 1 ≤ k && lowerStr ((rest.drop k).take 7) = "edition".toList then
      some (4 + k + 7, d)
    else none
  | none => none

/-- Python's `\w` (ASCII fragment). -/
def isWordChar (c : Char) : Bool := c.isAlphanum || c = '_'

/-- `\b(19\d{2}|20[0-2]\d)\b`. -/
def matchBareYear (prev : Option Char) (s : Str) : Option (Nat × Str) :=
  let boundaryBefore :=
    match prev with
    | none => true
    | some p => !isWordChar p
  match takeDigits4 s with
  | some d =>
    let shape19 := d.take 2 = ['1', '9']
    let shape20 := d.take 2 = ['2', '0'] &&
      (match d.get? 2 with
       | some c => '0' ≤ c && c ≤ '2'
       | none => false)
    let boundaryAfter :=
      match s.get? 4 with
      | none => true
      | some c => !isWordChar c
    if boundaryBefore && (decide shape19 || shape20) && boundaryAfter then
      some (4, d)
    else none
  | none => none

/-- `YEAR_PATTERNS`, in source order: copyright-symbol year, Copyright
word year, Published year, Publication year, edition year, bare
in-range year. -/
def YEAR_PATTERNS : List (Option Char → Str → Option (Nat × Str)) :=
  [matchCopyrightSymbol, matchCopyrightWord,
   matchKeywordYear ("Published".toList),
   matchKeywordYear ("Publication".toList),
   matchEditionYear, matchBareYear]

/-- Python `int` on a four-digit capture. -/
def digitsToNat (d : Str) : Nat :=
  d.foldl (fun acc c => acc * 10 + (c.toNat - '0'.toNat)) 0

/-- Candidates `(YearInt, Priority)` mined from one search text: every
pattern's matches, kept when `1900 <= YearInt <= 2030`, tagged with the
TEXT priority. -/
def yearCandidatesOfText (t : Str) (pri : Nat) : List (Nat × Nat) :=
  (YEAR_PATTERNS.map (fun p => pyFindall p t)).flatten.filterMap
    (fun d =>
      if 1900 ≤ digitsToNat d ∧ digitsToNat d ≤ 2030 then
        some (digitsToNat d, pri)
      else none)

/-- `YearCandidates` accumulated over
`SearchTexts = [(CopyrightText, 3), (TitleText, 2), (AllText[:25000], 1)]`
(empty texts are skipped). -/
def yearCandidates (ct tt allText : Str) : List (Nat × Nat) :=
  (if ct ≠ [] then yearCandidatesOfText ct 3 else []) ++
  (if tt ≠ [] then yearCandidatesOfText tt 2 else []) ++
  (if allText.take 25000 ≠ [] then yearCandidatesOfText (allText.take 25000) 1
   else [])

/-- The sort key comparison of
`YearCandidates.sort(key=lambda x: (x[1], x[0]), reverse=True)`:
`a` stays before an inserted `b` when `key a >= key b`. -/
def keyGE (a b : Nat × Nat) : Bool :=
  b.2 < a.2 || (a.2 = b.2 && b.1 ≤ a.1)

/-- Stable insertion for the descending sort. -/
def insertDesc (x : Nat × Nat) : List (Nat × Nat) → List (Nat × Nat)
  | [] => [x]
  | y :: ys => if keyGE y x then y :: insertDesc x ys else x :: y :: ys

/-- The stable descending sort by `(Priority, YearInt)`. -/
def sortDesc : List (Nat × Nat) → List (Nat × Nat)
  | [] => []
  | x :: xs => insertDesc x (sortDesc xs)

/-- `Metadata['extracted_year']`: the year of the head of the sorted
candidate list (absent when no candidate was found). -/
def extracted_year (ct tt allText : Str) : Option Nat :=
  match sortDesc (yearCandidates ct tt allText) with
  | [] => none
  | c :: _ => some c.1

/-- `key a <= key b` in the lexicographic `(Priority, YearInt)` order. -/
def keyLE (a b : Nat × Nat) : Prop :=
  a.2 < b.2 ∨ (a.2 = b.2 ∧ a.1 ≤ b.1)

theorem keyLE_refl (a : Nat × Nat) : keyLE a a := Or.inr ⟨rfl, le_refl _⟩

theorem keyLE_trans {a b c : Nat × Nat} (h1 : keyLE a b) (h2 : keyLE b c) :
    keyLE a c := by
  unfold keyLE at h1 h2 ⊢
  omega

theorem keyGE_true_iff {a b : Nat × Nat} : keyGE a b = true ↔ keyLE b a := by
  unfold keyGE keyLE
  simp only [Bool.or_eq_true, Bool.and_eq_true, decide_eq_true_eq]
  omega

theorem keyGE_false_keyLE {a b : Nat × Nat} (h : keyGE a b = false) :
    keyLE a b := by
  unfold keyGE at h
  unfold keyLE
  simp only [Bool.or_eq_false_iff, Bool.and_eq_false_iff] at h
  simp only [decide_eq_false_iff_not] at h
  omega

theorem insertDesc_length (w : Nat × Nat) :
    ∀ m : List (Nat × Nat), (insertDesc w m).length = m.length + 1 := by
  intro m
  induction m with
  | nil => rfl
  | cons b bt ihm =>
    unfold insertDesc
    split_ifs <;> simp [ihm]

theorem sortDesc_length : ∀ l : List (Nat × Nat),
    (sortDesc l).length = l.length := by
  intro l
  induction l with
  | nil => rfl
  | cons a ar ihh =>
    unfold sortDesc
    rw [insertDesc_length, ihh, List.length_cons]

theorem sortDesc_nil_of_nil {l : List (Nat × Nat)} (h : sortDesc l = []) :
    l = [] := by
  have hlen := sortDesc_length l
  rw [h] at hlen
  exact List.length_eq_zero.mp hlen.symm

theorem sortDesc_head_dominates :
    ∀ (l : List (Nat × Nat)) (y : Nat × Nat) (t : List (Nat × Nat)),
    sortDesc l = y :: t → y ∈ l ∧ ∀ z ∈ l, keyLE z y := by
  intro l
  induction l with
  | nil => intro y t h; simp [sortDesc] at h
  | cons x xs ih =>
    intro y t h
    unfold sortDesc at h
    cases hs : sortDesc xs with
    | nil =>
      have hxsnil : xs = [] := sortDesc_nil_of_nil hs
      rw [hs] at h
      unfold insertDesc at h
      cases h
      subst hxsnil
      constructor
      · exact List.mem_cons_self _ _
      · intro z hz
        rcases List.mem_cons.mp hz with rfl | hz2
        · exact keyLE_refl _
        · cases hz2
    | cons h0 t0 =>
      rw [hs] at h
      obtain ⟨hmem0, hdom0⟩ := ih h0 t0 hs
      unfold insertDesc at h
      by_cases hk : keyGE h0 x = true
      · rw [if_pos hk] at h
        cases h
        refine ⟨List.mem_cons_of_mem _ hmem0, ?_⟩
        intro z hz
        rcases List.mem_cons.mp hz with rfl | hz2
        · exact keyGE_true_iff.mp hk
        · exact hdom0 z hz2
      · rw [if_neg hk] at h
        cases h
        refine ⟨List.mem_cons_self _ _, ?_⟩
        intro z hz
        rcases List.mem_cons.mp hz with rfl | hz2
        · exact keyLE_refl _
        · exact keyLE_trans (hdom0 z hz2)
            (keyGE_false_keyLE (Bool.not_eq_true _ ▸ hk))

/-- C6 counterexample: the text `"© 1998 xyz 2010"` as the only search
text yields `extracted_year = 2010`, not `1998`: within one search
text all patterns' candidates share the same priority, so the largest
year wins and copyright-symbol adjacency confers no precedence -
refuting the claimed pattern-priority ranking. -/
theorem C6_counterexample :
    extracted_year [] [] ("© 1998 xyz 2010".toList) = some 2010 := by decide

/-- C6 (amended): year candidates are ranked by SOURCE-TEXT priority
(copyright page 3, title page 2, bounded general text 1) with the
largest year winning among candidates of equal text priority; the
pattern that matched plays no role.  Consequently `"© 1998"` beats a
bare `"2010"` only when it sits in a higher-priority text (e.g. the
copyright-page text versus the general text). -/
theorem C6_year_ranking (ct tt allText : Str)
    (hne : yearCandidates ct tt allText ≠ []) :
    (∃ y p, extracted_year ct tt allText = some y ∧
      (y, p) ∈ yearCandidates ct tt allText ∧
      ∀ z q, (z, q) ∈ yearCandidates ct tt allText →
        q < p ∨ (q = p ∧ z ≤ y)) ∧
    extracted_year ("© 1998".toList) [] ("2010".toList) = some 1998 := by
  refine ⟨?_, by decide⟩
  have heq : extracted_year ct tt allText =
      match sortDesc (yearCandidates ct tt allText) with
      | [] => none
      | c :: _ => some c.1 := rfl
  cases hs : sortDesc (yearCandidates ct tt allText) with
  | nil => exact absurd (sortDesc_nil_of_nil hs) hne
  | cons c t =>
    obtain ⟨hmem, hdom⟩ := sortDesc_head_dominates _ c t hs
    refine ⟨c.1, c.2, by rw [heq, hs], by simpa using hmem, ?_⟩
    intro z q hzq
    have := hdom (z, q) hzq
    unfold keyLE at this
    simpa using this

/-- Closed instantiation of `C6_year_ranking`: the candidate list of
(`"© 1998"`, `""`, `"2010"`) is non-empty and the extracted year
dominates every candidate in the `(text priority, year)` order. -/
theorem C6_year_ranking_witness :
    yearCandidates ("© 1998".toList) [] ("2010".toList) ≠ [] ∧
    (∃ y p, extracted_year ("© 1998".toList) [] ("2010".toList) = some y ∧
      (y, p) ∈ yearCandidates ("© 1998".toList) [] ("2010".toList) ∧
      ∀ z q, (z, q) ∈ yearCandidates ("© 1998".toList) [] ("2010".toList) →
        q < p ∨ (q = p ∧ z ≤ y)) :=
  ⟨by decide,
   (C6_year_ranking ("© 1998".toList) [] ("2010".toList) (by decide)).1⟩

end BowersWorld
